import Mathlib

set_option linter.all false

-- Verification development for the bestest grading pipeline.
-- Shallow embedding of src/test.rs, src/checker.rs, src/unpacker.rs,
-- src/config.rs and src/lang/java.rs.  Rust byte offsets and byte lengths
-- are modelled as character offsets and lengths (they coincide on the
-- ASCII inputs used throughout); filesystem and process effects are
-- modelled as explicit oracle inputs.

namespace Bestest

/-- Test case record, from src/test.rs struct TestCase (points: u64 as Nat). -/
structure TestCase where
  input : String
  expected : String
  points : Nat
deriving DecidableEq

/-- Runner error taxonomy, from src/lang/runner.rs enum RunError:
compile error or runtime error, each with an optional exit code and a message. -/
inductive RunError where
  | CE (code : Option Int) (reason : String)
  | RE (code : Option Int) (reason : String)
deriving DecidableEq

/-- From src/test.rs test_proc: both RunError arms are destructured the same
way, with a missing exit code defaulting to -1. -/
def RunError.codeReason : RunError → Int × String
  | .CE c r => (c.getD (-1), r)
  | .RE c r => (c.getD (-1), r)

/-- Result of the line diff, modelling the external imara-diff crate at the
interface src/test.rs uses: a set of removed lines (only in expected) and
added lines (only in actual).  The model diff strips the longest common
prefix of the two token sequences and reports the remainders; like the
histogram diff it reports zero additions and zero removals exactly when the
two token sequences are equal, which is the only property test_proc consumes
(count_additions() + count_removals() == 0). -/
structure DiffRes where
  removals : List String
  additions : List String
deriving DecidableEq

/-- Length of the longest common prefix of two token lists. -/
def commonPrefixLen : List String → List String → Nat
  | a :: as, b :: bs => if a = b then commonPrefixLen as bs + 1 else 0
  | _, _ => 0

/-- Model of imara_diff Diff::compute on interned line tokens (see DiffRes). -/
def diffCompute (expected actual : List String) : DiffRes :=
  let k := commonPrefixLen expected actual
  { removals := expected.drop k, additions := actual.drop k }

/-- Line tokenization used by the diff: split into lines keeping the
terminating newline with each line, imara-diff's tokenization of &str input. -/
def linesWTChars : List Char → List (List Char)
  | [] => []
  | c :: rest =>
    if c = '\n' then ['\n'] :: linesWTChars rest
    else
      match linesWTChars rest with
      | [] => [[c]]
      | h :: t => (c :: h) :: t

/-- Line tokenization on strings (see linesWTChars). -/
def linesWT (s : String) : List String :=
  (linesWTChars s.data).map (fun l => String.mk l)

/-- Case outcome, from src/test.rs enum TestResult.  The diff carried by
Wrong is the computed DiffRes. -/
inductive TestResult where
  | Correct (case : TestCase) (output : String)
  | Error (reason : String) (code : Int)
  | Wrong (case : TestCase) (output : String) (diff : DiffRes)
deriving DecidableEq

/-- From src/test.rs TestResult::is_correct. -/
def TestResult.isCorrect : TestResult → Bool
  | .Correct _ _ => true
  | .Error _ _ => false
  | .Wrong _ _ _ => false

/-- Oracle describing what the child process did during one test case:
the results of run(), stdin(), the race of wait() against the timeout
(completedInTime = false means the tokio timeout fired first), and of
read_all().  These are the four effectful suspension points of
src/test.rs test_proc. -/
structure CaseExec where
  runResult : Except RunError Unit
  stdinResult : Except String Unit
  completedInTime : Bool
  readResult : Except String String

/-- From src/test.rs test_proc: run, feed stdin, race wait against the
timeout (on timeout: SIGKILL, poll until dead, record Error code 9
reason "Timed out."), else read stdout, diff against expected, and classify
Correct when count_additions + count_removals = 0, Wrong otherwise.
config::get_config never fails (src/config.rs returns Ok(&CONFIG)), so the
configuration-error arm is dead and not modelled. -/
def testProc (path : String) (tc : TestCase) (ex : CaseExec) : TestResult :=
  match ex.runResult with
  | .error e => TestResult.Error (RunError.codeReason e).2 (RunError.codeReason e).1
  | .ok _ =>
    match ex.stdinResult with
    | .error e =>
      TestResult.Error ("failed to input stdin for process " ++ path ++ ": " ++ e) (-1)
    | .ok _ =>
      if ex.completedInTime = false then
        TestResult.Error "Timed out." 9
      else
        match ex.readResult with
        | .error e => TestResult.Error ("failed to read stdout: " ++ e) (-1)
        | .ok out =>
          let d := diffCompute (linesWT tc.expected) (linesWT out)
          if d.additions.length + d.removals.length = 0 then
            TestResult.Correct tc out
          else
            TestResult.Wrong tc out d

/-- The indexed per-case loop of src/test.rs test_file_progress
(for i in 0..tc.len() { test_proc(path, proc, &tc[i]) }); the oracle f gives
case i its CaseExec. -/
def runCases (path : String) (f : Nat → CaseExec) : Nat → List TestCase → List TestResult
  | _, [] => []
  | i, tc :: rest => testProc path tc (f i) :: runCases path f (i + 1) rest

/-- Oracle describing one submission's effectful steps in the order
src/test.rs test_file_progress performs them: semaphore acquisition,
runner::from_dir, filename decoding, prepare(), then the per-case oracles. -/
structure SubmissionExec where
  semaphoreOk : Bool
  runnerInitOk : Bool
  filenameOk : Bool
  prepareResult : Except RunError Unit
  caseExec : Nat → CaseExec

/-- Judging configuration surface consumed by the harness, from
src/config.rs struct Config (the fields the embedded code reads). -/
structure Config where
  testcases : List TestCase
  threads : Nat
  timeout : Nat
deriving DecidableEq

/-- From src/test.rs test_file_progress: fail early (as a CE) when the
semaphore is closed, the runner cannot be initialized, or the filename is
not valid UTF-8; return prepare()'s error unchanged; otherwise run every
configured test case in declared order and return all outcomes. -/
def testFileProgress (cfg : Config) (path : String) (ex : SubmissionExec) :
    Except RunError (List TestResult) :=
  if ex.semaphoreOk = false then .error (.CE none "Semaphore closed")
  else if ex.runnerInitOk = false then .error (.CE none "Runner initialization failed")
  else if ex.filenameOk = false then .error (.CE none "Invalid filename")
  else
    match ex.prepareResult with
    | .error e => .error e
    | .ok _ => .ok (runCases path ex.caseExec 0 cfg.testcases)

/-- From src/test.rs test_dirs (the aggregation over one joined task):
an Err(RE) or Err(CE) is converted into one Error outcome per configured
test case, carrying the error's reason and its code defaulted to -1. -/
def testDirsEntry (cfg : Config) (path : String) (ex : SubmissionExec) :
    String × List TestResult :=
  match testFileProgress cfg path ex with
  | .error (.RE code reason) =>
    (path, List.replicate cfg.testcases.length (TestResult.Error reason (code.getD (-1))))
  | .error (.CE code reason) =>
    (path, List.replicate cfg.testcases.length (TestResult.Error reason (code.getD (-1))))
  | .ok l => (path, l)

/-- From src/test.rs test_dirs: every submission is judged and aggregated. -/
def testDirs (cfg : Config) (subs : List (String × SubmissionExec)) :
    List (String × List TestResult) :=
  subs.map (fun p => testDirsEntry cfg p.1 p.2)

/-- Source language, from src/executable.rs enum Language. -/
inductive Language where
  | Java
  | Cpp
  | C
  | Rust
  | Python
  | Unknown (s : String)
  | Guess
deriving DecidableEq

/-- Extension-to-language map, from src/config.rs impl From for Language. -/
def langOfExt : String → Language
  | "java" => .Java
  | "jar" => .Java
  | "cpp" => .Cpp
  | "c" => .C
  | "rs" => .Rust
  | "py" => .Python
  | _ => .Unknown ""

/-- Capability categories, from src/checker.rs enum Allow, in declaration
order (which is the strum EnumIter iteration order).  FileIo is the
source's FileIO variant. -/
inductive Allow where
  | FileIo
  | SysAccess
  | Runtime
  | Threading
  | Reflection
  | ProcessExec
  | SystemCall
  | Network
  | Assembly
  | Signal
  | Process
  | Unsafe
  | FFI
  | Command
  | OsAccess
  | Eval
  | Exec
  | Import
  | Ctypes
  | Pickle
  | Unknown
  | All
deriving DecidableEq

/-- The full capability enumeration in iteration order (Allow::iter()). -/
def allowIter : List Allow :=
  [.FileIo, .SysAccess, .Runtime, .Threading, .Reflection, .ProcessExec,
   .SystemCall, .Network, .Assembly, .Signal, .Process, .Unsafe, .FFI,
   .Command, .OsAccess, .Eval, .Exec, .Import, .Ctypes, .Pickle, .Unknown,
   .All]

/-- Variant names produced by the strum AsRefStr derive on Allow. -/
def Allow.asRef : Allow → String
  | .FileIo => "FileIO"
  | .SysAccess => "SysAccess"
  | .Runtime => "Runtime"
  | .Threading => "Threading"
  | .Reflection => "Reflection"
  | .ProcessExec => "ProcessExec"
  | .SystemCall => "SystemCall"
  | .Network => "Network"
  | .Assembly => "Assembly"
  | .Signal => "Signal"
  | .Process => "Process"
  | .Unsafe => "Unsafe"
  | .FFI => "FFI"
  | .Command => "Command"
  | .OsAccess => "OsAccess"
  | .Eval => "Eval"
  | .Exec => "Exec"
  | .Import => "Import"
  | .Ctypes => "Ctypes"
  | .Pickle => "Pickle"
  | .Unknown => "Unknown"
  | .All => "All"

/-- First occurrence of pat in hay starting from index i, models Rust
str::find (byte offset, char offset here; identical on ASCII). -/
def firstOcc (hay pat : List Char) (i : Nat) : Option Nat :=
  match hay with
  | [] => if pat.isEmpty then some i else none
  | _ :: rest => if pat.isPrefixOf hay then some i else firstOcc rest pat (i + 1)

/-- Substring containment (Rust str::contains). -/
def strContains (hay pat : String) : Bool :=
  (firstOcc hay.data pat.data 0).isSome

/-- From src/checker.rs Allow::from_str: every variant whose AsRefStr name
is a substring of the configured string, in iteration order. -/
def Allow.fromStr (s : String) : List Allow :=
  allowIter.filter (fun i => strContains s (Allow.asRef i))

/-- From src/checker.rs static_check::check (lines 227-236): each configured
allow string resolves to the first matching variant, unresolvable entries
are dropped with a warning.  The Rust HashSet is modelled as the list of
resolved variants; only membership queries are made on it. -/
def resolveAllowed (allowcfg : List String) : List Allow :=
  allowcfg.filterMap (fun s => (Allow.fromStr s).head?)

/-- Per-language prohibited literal-token tables, from src/checker.rs
Allow::get_prohibited, translated table for table. -/
def Allow.getProhibited (a : Allow) (lang : Language) : List String :=
  match lang with
  | .Unknown _ => []
  | .Guess => []
  | .C =>
    match a with
    | .SystemCall =>
      ["fork", "exec", "system", "popen", "vfork", "execl", "execlp",
       "execle", "execv", "execvp", "execve"]
    | .FileIo => ["fopen", "fread", "fwrite", "fclose"]
    | .Network => ["socket", "bind", "connect", "recv", "send"]
    | .Assembly => ["asm", "__asm__"]
    | .Signal => ["signal", "raise"]
    | .Process => ["wait", "waitpid"]
    | .All =>
      ["fork", "exec", "system", "popen", "vfork", "execl", "execlp",
       "execle", "execv", "execvp", "execve", "fopen", "fread", "fwrite",
       "fclose", "socket", "bind", "connect", "recv", "send", "asm",
       "__asm__", "signal", "raise", "wait", "waitpid"]
    | _ => []
  | .Cpp =>
    match a with
    | .SystemCall =>
      ["fork", "exec", "system", "popen", "vfork", "execl", "execlp",
       "execle", "execv", "execvp", "execve"]
    | .FileIo => ["fopen", "fread", "fwrite", "fclose"]
    | .Network => ["socket", "bind", "connect", "recv", "send"]
    | .Assembly => ["asm", "__asm__"]
    | .Signal => ["signal", "raise"]
    | .Process => ["wait", "waitpid"]
    | .All =>
      ["fork", "exec", "system", "popen", "vfork", "execl", "execlp",
       "execle", "execv", "execvp", "execve", "fopen", "fread", "fwrite",
       "fclose", "socket", "bind", "connect", "recv", "send", "asm",
       "__asm__", "signal", "raise", "wait", "waitpid"]
    | _ => []
  | .Rust =>
    match a with
    | .Unsafe => ["unsafe"]
    | .FileIo => ["std::fs::File", "std::io"]
    | .Network => ["std::net", "TcpStream", "UdpSocket"]
    | .Threading => ["std::thread"]
    | .FFI => ["extern", "libc", "std::os::unix::process::Command"]
    | .Command => ["std::process::Command"]
    | .Reflection => ["reflect"]
    | .All =>
      ["unsafe", "std::fs::File", "std::io", "std::net", "TcpStream",
       "UdpSocket", "std::thread", "extern", "libc",
       "std::os::unix::process::Command", "std::process::Command",
       "reflection"]
    | _ => []
  | .Python =>
    match a with
    | .OsAccess => ["os.system", "os.popen"]
    | .Eval => ["eval("]
    | .Exec => ["exec("]
    | .FileIo => ["open("]
    | .Threading => ["threading.Thread"]
    | .Network => ["socket", "requests.get", "urllib", "subprocess"]
    | .Import => ["__import__"]
    | .Ctypes => ["ctypes"]
    | .Pickle => ["pickle.loads", "pickle.dumps"]
    | .All =>
      ["os.system", "os.popen", "eval(", "exec(", "open(",
       "threading.Thread", "socket", "requests.get", "urllib",
       "subprocess", "__import__", "ctypes", "pickle.loads",
       "pickle.dumps"]
    | _ => []
  | .Java =>
    match a with
    | .FileIo =>
      ["java.io.FileInputStream", "java.io.FileOutputStream",
       "java.io.FileReader", "java.io.FileWriter"]
    | .SysAccess =>
      ["System.exit", "System.setSecurityManager", "SecurityManager",
       "checkPermission"]
    | .Runtime =>
      ["Runtime", "Runtime.exec", "Runtime.getRuntime", "runtimeexec"]
    | .Threading =>
      ["Thread", "Thread.start", "new Thread", "ExecutorService",
       "Executors.new", "ThreadPoolExecutor"]
    | .Reflection =>
      ["reflect", "Class.forName", "Class.getDeclaredMethod",
       "Class.getMethod", "setAccessible", "invoke"]
    | .ProcessExec => ["ProcessBuilder", "Runtime.exec"]
    | .All =>
      ["java.io.FileInputStream", "java.io.FileOutputStream",
       "java.io.FileReader", "java.io.FileWriter", "System.exit",
       "System.setSecurityManager", "SecurityManager", "checkPermission",
       "Runtime", "Runtime.exec", "Runtime.getRuntime", "runtimeexec",
       "Thread", "Thread.start", "reflect", "Class.forName",
       "Class.getDeclaredMethod", "Class.getMethod", "setAccessible",
       "invoke", "ProcessBuilder"]
    | _ => []

/-- Located finding, from src/checker.rs struct IllegalExpr. -/
structure IllegalExpr where
  content : Option String
  violates : Option Allow
  loc : Nat × Nat
  path : String
deriving DecidableEq

/-- A source file as the screener sees it: its path extension (none models
Path::extension() returning None), whether File::open succeeds, and the
text read_to_string yields (read errors are discarded by the source via
a let _ binding, so the field holds whatever was read). -/
structure SrcFile where
  ext : Option String
  readable : Bool
  content : String
deriving DecidableEq

/-- How the screener can fail: panicNoExt models the unwrap panic on
path.extension() (src/checker.rs line 226), panicLineWalk the unwrap panic
on the exhausted indents iterator (line 264), openFailed the File::open
error propagated with the question-mark operator (line 247). -/
inductive CheckErr where
  | panicNoExt
  | panicLineWalk
  | openFailed
deriving DecidableEq

/-- From src/checker.rs static_check::check (lines 256-273): the reported
location of an offset.  The loop compares each individual line length
against the absolute offset (no cumulative sum), stops at the first line
whose length is not greater than the offset, and reports
(offset - that length, index).  It panics (none) when every line length
exceeds the offset, because the iterator is exhausted while the loop
condition still unwraps it. -/
def locWalk : List Nat → Nat → Nat → Option (Nat × Nat)
  | [], _, _ => none
  | l :: rest, off, k => if l > off then locWalk rest off (k + 1) else some (off - l, k)

/-- Rust str::split on a newline character: the pieces between newlines,
with empty pieces kept (so a trailing newline yields a final empty piece). -/
def splitNl : List Char → List (List Char)
  | [] => [[]]
  | c :: rest =>
    if c = '\n' then [] :: splitNl rest
    else
      match splitNl rest with
      | [] => [[c]]
      | h :: t => (c :: h) :: t

/-- From src/checker.rs static_check::check (line 240): the prohibited
categories are the whole enumeration minus the allow set, so the All
variant itself is prohibited whenever it is not allowed. -/
def prohibitedOf (allowed : List Allow) : List Allow :=
  allowIter.filter (fun el => decide (el ∉ allowed))

/-- From src/checker.rs static_check::check (lines 241-246): pair every
prohibited category with each token of its language table. -/
def prohibitedStrOf (allowed : List Allow) (lang : Language) : List (Allow × String) :=
  (prohibitedOf allowed).flatMap
    (fun i => (Allow.getProhibited i lang).map (fun j => (i, j)))

/-- From src/checker.rs static_check::check (lines 250-255): the first
occurrence of each searched token, tagged with its category. -/
def illegalOf (content : String) (ps : List (Allow × String)) : List (Nat × Allow) :=
  ps.filterMap
    (fun ij => (firstOcc content.data ij.2.data 0).map (fun off => (off, ij.1)))

/-- From src/checker.rs static_check::check: resolve the language from the
path extension (unwrap: panics when there is none), resolve the allow set,
short-circuit with zero findings when All is allowed, otherwise search the
file text for the first occurrence of every token of every prohibited
category (the complement of the allow set over the full enumeration, which
then always contains the All variant and its combined table) and locate
each hit with locWalk over the per-line lengths. -/
def check (allowcfg : List String) (path : String) (f : SrcFile) :
    Except CheckErr (List IllegalExpr) :=
  match f.ext with
  | none => .error .panicNoExt
  | some e =>
    let lang := langOfExt e
    let allowed := resolveAllowed allowcfg
    if Allow.All ∈ allowed then .ok []
    else
      let prohibitedStr := prohibitedStrOf allowed lang
      if f.readable = false then .error .openFailed
      else
        let illegal := illegalOf f.content prohibitedStr
        let indents := (splitNl f.content.data).map List.length
        match illegal.mapM
            (fun oa => (locWalk indents oa.1 0).map
              (fun lc => IllegalExpr.mk none (some oa.2) lc path)) with
        | none => .error .panicLineWalk
        | some ret => .ok ret

/-- Known extensions, from src/config.rs KNOWN_EXTENSIONS. -/
def knownExtensions : List String :=
  ["java", "jar", "c", "cpp", "rs", "py", "tar", "tar.gz", "gz", "zip"]

/-- From src/checker.rs check_dirs (lines 34-50): entries are kept when
their extension, defaulted to "java" when the path has none, is a known
extension (so extension-less files pass the filter). -/
def checkDirsFilter (files : List (String × SrcFile)) : List (String × SrcFile) :=
  files.filter (fun f => knownExtensions.contains (f.2.ext.getD "java"))

/-- From src/checker.rs changefile: a Result error from check_file (the
File::open failure) is pushed onto the error list and the task finishes
normally; a panic inside check is not a Result and propagates as a task
panic (modelled as the error side). -/
def changefileEntry (allowcfg : List String) (pf : String × SrcFile) :
    Except CheckErr (Option (String × List IllegalExpr)) :=
  match check allowcfg pf.1 pf.2 with
  | .ok o => .ok (some (pf.1, o))
  | .error .openFailed => .ok none
  | .error e => .error e

/-- From src/checker.rs check_dirs: run the screener over every filtered
entry; a panicked task surfaces as a JoinError at the awaited handle, and
the question-mark operator there aborts the whole batch. -/
def checkDirs (allowcfg : List String) (files : List (String × SrcFile)) :
    Except CheckErr (List (String × List IllegalExpr)) :=
  ((checkDirsFilter files).mapM (changefileEntry allowcfg)).map
    (fun l => l.filterMap id)

/-- Reference location computation following the spec's words (claim C5,
the source's comparison point): walk the lines, keeping a cumulative start
offset (each line contributing its length plus one for the newline), until
the offset falls inside a line; report (line index, offset - line start). -/
def specLineColAux : List Nat → Nat → Nat → Nat → Nat × Nat
  | [], idx, start, off => (idx, off - start)
  | l :: rest, idx, start, off =>
    if off < start + l + 1 then (idx, off - start)
    else specLineColAux rest (idx + 1) (start + l + 1) off

/-- Reference location computation on a file content (see specLineColAux). -/
def specLineCol (content : String) (off : Nat) : Nat × Nat :=
  specLineColAux ((splitNl content.data).map List.length) 0 0 off

/-- Ordering key, from src/config.rs enum Orderby. -/
inductive Orderby where
  | Name
  | Id
deriving DecidableEq

/-- Unpack failure taxonomy, from src/unpacker.rs enum UnpackError. -/
inductive UnpackError where
  | FileFormat
  | Executable
  | FileType
  | ZipProblem (detail : String)
  | Os (errno : Int)
  | Ignore
  | Unknown
deriving DecidableEq

/-- Named-capture result of the compiled format regex on a filename,
modelling the external regex crate at the interface src/unpacker.rs uses:
caps.name(key) for the keys "name", "id", "extension" and "filename". -/
structure Caps where
  find : String → Option String

/-- A directory entry as the unpacker probes it. -/
structure FileEntry where
  isDir : Bool
  isFile : Bool
  fileName : Option String
  ext : Option String
  executableBit : Bool

/-- Result of tokio create_dir, from src/unpacker.rs lines 251-257:
an AlreadyExists error is tolerated. -/
inductive CreateDirRes where
  | ok
  | alreadyExists
  | err (errno : Int)

/-- Results of the filesystem effects unpack performs after routing. -/
structure FsEnv where
  createDir : CreateDirRes
  unzip : Except String Unit
  copy : Except Int Unit

/-- From src/unpacker.rs unpack: directories are Ignored; regular files
with an extension outside KNOWN_EXTENSIONS are Ignored; the filename is
matched by the compiled format regex (caps, supplied by the regex oracle;
no match is Ignored); the orderby capture is required (FileFormat when
absent); the extension is the regex capture, else the path extension, else
the unix executable-bit fallback; toml and json are Ignored; the workspace
is tempDir/<capture>, created idempotently; archives are unzipped into it,
other files copied in.  Compilation of the format regex itself (line 186,
failure yields Unknown) is outside the modelled routing and assumed to
succeed. -/
def unpack (orderby : Orderby) (tempDir : String) (p : FileEntry)
    (caps : Option Caps) (env : FsEnv) : Except UnpackError String :=
  if p.isDir then .error .Ignore
  else if p.isFile ∧ ¬ ((p.ext.map (fun e => knownExtensions.contains e)).getD false) then
    .error .Ignore
  else
    match p.fileName with
    | none => .error .Ignore
    | some _ =>
      match caps with
      | none => .error .Ignore
      | some c =>
        match c.find (match orderby with | .Name => "name" | .Id => "id") with
        | none => .error .FileFormat
        | some nm =>
          let extRes : Except UnpackError String :=
            match c.find "extension" with
            | some e => .ok e
            | none =>
              match p.ext with
              | some e2 => .ok e2
              | none =>
                if p.executableBit then .error .Executable else .error .FileType
          match extRes with
          | .error e => .error e
          | .ok ext =>
            if ext = "toml" ∨ ext = "json" then .error .Ignore
            else
              let target := tempDir ++ "/" ++ nm
              match env.createDir with
              | .err n => .error (.Os n)
              | _ =>
                if ext = "zip" ∨ ext = "tar" ∨ ext = "tar.gz" then
                  match env.unzip with
                  | .error e => .error (.ZipProblem e)
                  | .ok _ => .ok target
                else
                  match env.copy with
                  | .error n => .error (.Os n)
                  | .ok _ => .ok target

/-- Placeholders recognized by src/config.rs generate_regex. -/
inductive Ph where
  | name
  | alpha
  | num
  | alnum
  | word
  | filename
  | id
  | extension
deriving DecidableEq

/-- Parsed shape of the generated regex: the format string with every
recognized placeholder replaced by its named capture group and every other
character (dots escaped) matching literally. -/
inductive FmtItem where
  | lit (c : Char)
  | ph (p : Ph)
deriving DecidableEq

/-- Placeholder keys, from the table in src/config.rs generate_regex. -/
def phOfKey : String → Option Ph
  | "name" => some .name
  | "alpha" => some .alpha
  | "num" => some .num
  | "alnum" => some .alnum
  | "word" => some .word
  | "filename" => some .filename
  | "id" => some .id
  | "extension" => some .extension
  | _ => none

/-- Scan a format string into literal characters and placeholders.  A brace
group whose key is not in the placeholder table stays literal text, as the
textual replacement in generate_regex leaves it untouched. -/
def parseFmtAux : List Char → Option (List Char) → List FmtItem
  | [], none => []
  | [], some acc => ('{' :: acc.reverse).map FmtItem.lit
  | c :: rest, none =>
    if c = '{' then parseFmtAux rest (some [])
    else FmtItem.lit c :: parseFmtAux rest none
  | c :: rest, some acc =>
    if c = '}' then
      match phOfKey (String.mk acc.reverse) with
      | some p => FmtItem.ph p :: parseFmtAux rest none
      | none =>
        (('{' :: acc.reverse) ++ ['}']).map FmtItem.lit ++ parseFmtAux rest none
    else parseFmtAux rest (some (c :: acc))

/-- Parse a naming-format string (see parseFmtAux). -/
def parseFmt (format : String) : List FmtItem :=
  parseFmtAux format.data none

/-- Character classes of the capture groups in src/config.rs generate_regex.
The regex crate's word class is Unicode-aware; the ASCII classes used here
agree with it on the ASCII filenames considered. -/
def phMatches : Ph → List Char → Bool
  | .name, cs =>
    match cs with
    | [] => false
    | c :: rest => c.isAlpha && rest.all (fun d => d.isAlphanum || d = '_')
  | .alpha, cs => !cs.isEmpty && cs.all Char.isAlpha
  | .num, cs => !cs.isEmpty && cs.all Char.isDigit
  | .alnum, cs => !cs.isEmpty && cs.all Char.isAlphanum
  | .word, cs => !cs.isEmpty && cs.all (fun d => d.isAlphanum || d = '_')
  | .filename, cs => !cs.isEmpty && cs.all (fun d => d.isAlphanum || d = '_')
  | .id, cs => !cs.isEmpty && cs.all Char.isDigit
  | .extension, cs => !cs.isEmpty && cs.all (fun d => d.isAlphanum || d = '_')

/-- The anchored generated regex matches a filename, binding each
placeholder occurrence, in order, to the listed capture: literal items
consume exactly their character and placeholder items consume a nonempty
segment of their class.  Relational semantics of the compiled pattern of
generate_regex. -/
def capList : List FmtItem → List Char → List (Ph × List Char) → Prop
  | [], s, caps => s = [] ∧ caps = []
  | .lit c :: items, s, caps => ∃ s', s = c :: s' ∧ capList items s' caps
  | .ph p :: items, s, caps =>
    ∃ seg s' caps', s = seg ++ s' ∧ phMatches p seg = true ∧
      caps = (p, seg) :: caps' ∧ capList items s' caps'

/-- Liveness of the child process as try_wait reports it. -/
inductive ProcStatus where
  | running
  | exited (code : Option Int)
deriving DecidableEq

/-- The child process handle held by the runner: whether stdin was piped,
the buffered stdout contents when stdout was piped, and its status.  After
exit the pipes persist until the handle is dropped. -/
structure ChildProc where
  stdinPiped : Bool
  stdoutPipe : Option String
  status : ProcStatus
deriving DecidableEq

/-- State of src/lang/java.rs struct JavaRunner relevant to its query
operations: the start instant, the optional child process, and the
write-once exit code cell. -/
structure JavaRunner where
  start : Option Nat
  process : Option ChildProc
  exitcode : Option Int
deriving DecidableEq

/-- From src/lang/java.rs JavaRunner::read_all: error when no process was
ever spawned or its stdout is not piped; otherwise drain and return the
buffered stdout.  The process's liveness is not consulted. -/
def JavaRunner.readAll (r : JavaRunner) : Except String String :=
  match r.process with
  | none => .error "Process is not running!"
  | some p =>
    match p.stdoutPipe with
    | none => .error "Stdout is not open!"
    | some buf => .ok buf

/-- From src/lang/java.rs JavaRunner::running: poll the child with try_wait;
on exit, store the exit code in the write-once cell (first writer wins) and
report false; report false as well when no process exists. -/
def JavaRunner.runningPoll (r : JavaRunner) : JavaRunner × Bool :=
  match r.process with
  | none => (r, false)
  | some p =>
    match p.status with
    | .running => (r, true)
    | .exited code =>
      match code with
      | some c => ({ r with exitcode := some (r.exitcode.getD c) }, false)
      | none => (r, false)

/-- From src/lang/java.rs JavaRunner::stdin: error when the process has not
started or its stdin is not piped; otherwise write and flush the input. -/
def JavaRunner.stdinWrite (r : JavaRunner) (_input : String) : Except String Unit :=
  match r.process with
  | none => .error "Process has not started yet!"
  | some p =>
    if p.stdinPiped then .ok ()
    else .error "Process stdin is not available"

/-- Scheduling state of one judged submission in the bounded worker pool:
pending before semaphore.acquire() returns, holding between acquire and the
drop of the permit (the whole prepare-plus-all-cases sequence of
test_file_progress), done afterwards. -/
inductive TaskPhase where
  | pending
  | holding
  | done
deriving DecidableEq

/-- Number of tasks currently holding a permit. -/
def holdingCount : List TaskPhase → Nat
  | [] => 0
  | .holding :: rest => holdingCount rest + 1
  | .pending :: rest => holdingCount rest
  | .done :: rest => holdingCount rest

/-- State of the judging phase's worker pool: the semaphore capacity and
the phase of every spawned submission task. -/
structure PoolState where
  capacity : Nat
  tasks : List TaskPhase

/-- Interleaving semantics of the tokio counting semaphore as
test_file_progress uses it: a pending task's acquire() returns only while
fewer than capacity permits are out (each holding task owns exactly one
permit), and a holding task releases its single permit exactly once, when
its whole per-case loop is finished. -/
inductive PoolStep : PoolState → PoolState → Prop
  | acquire (s : PoolState) (i : Nat)
      (hp : s.tasks[i]? = some TaskPhase.pending)
      (hcap : holdingCount s.tasks < s.capacity) :
      PoolStep s ⟨s.capacity, s.tasks.set i TaskPhase.holding⟩
  | release (s : PoolState) (i : Nat)
      (hh : s.tasks[i]? = some TaskPhase.holding) :
      PoolStep s ⟨s.capacity, s.tasks.set i TaskPhase.done⟩

/-- Initial pool state of src/test.rs test_dirs: a fresh semaphore of
capacity cfg.threads.max(1) and one spawned task per submission, none of
which has acquired yet. -/
def initPool (cfg : Config) (n : Nat) : PoolState :=
  ⟨max cfg.threads 1, List.replicate n TaskPhase.pending⟩

/-- Semaphore capacity constructed by src/test.rs test_dirs. -/
def testDirsSemCapacity (cfg : Config) : Nat := max cfg.threads 1

/-- Semaphore capacity constructed by src/checker.rs check_dirs. -/
def checkDirsSemCapacity (cfg : Config) : Nat := cfg.threads

/-- Semaphore capacity constructed by src/unpacker.rs unpack_dir. -/
def unpackDirSemCapacity (cfg : Config) : Nat := max cfg.threads 1

/-- The semaphores a full run constructs, in phase order: src/main.rs run()
awaits unpack_dir, then check_dirs, then test_dirs, and each of the three
constructs its own fresh Semaphore (src/unpacker.rs line 62,
src/checker.rs line 25, src/test.rs line 73). -/
def runCreatedSemaphores (cfg : Config) : List Nat :=
  [unpackDirSemCapacity cfg, checkDirsSemCapacity cfg, testDirsSemCapacity cfg]

/-- Concrete fixture: the spec's end-to-end addition test case. -/
def tcSum : TestCase := ⟨"3\n4\n", "7\n", 10⟩

/-- Concrete fixture: a second test case. -/
def tcEcho : TestCase := ⟨"5\n", "5\n", 5⟩

/-- Concrete fixture: a case execution that completes in time and prints
the expected sum. -/
def exCorrect : CaseExec := ⟨.ok (), .ok (), true, .ok "7\n"⟩

/-- Concrete fixture: a two-case configuration. -/
def cfgTwo : Config := ⟨[tcSum, tcEcho], 2, 1000⟩

/-- Concrete fixture: a submission whose process never finishes any case
within the timeout. -/
def exTimeout : SubmissionExec :=
  ⟨true, true, true, .ok (), fun _ => ⟨.ok (), .ok (), false, .ok ""⟩⟩

/-- Concrete fixture: a submission whose compilation fails with exit code 1. -/
def exCompileFail : SubmissionExec :=
  ⟨true, true, true, .error (.CE (some 1) "javac: error"),
   fun _ => ⟨.ok (), .ok (), true, .ok ""⟩⟩

/-- Concrete fixture: a file whose path has no extension. -/
def fNoExt : SrcFile := ⟨none, true, "eval(input())"⟩

/-- Concrete fixture: a Python file screened under an allow-everything list. -/
def fAllPy : SrcFile := ⟨some "py", true, "eval(input())"⟩

/-- Concrete fixture: a Java file whose only disallowed tokens are FileIO
tokens. -/
def fJavaFileIo : SrcFile := ⟨some "java", true, "x\njava.io.FileReader\n"⟩

/-- Concrete fixture: a Java file containing no prohibited token at all. -/
def fCleanJava : SrcFile := ⟨some "java", true, "class M"⟩

/-- Concrete fixture: a Rust file with an unsafe token on its second line. -/
def fRustTwoLines : SrcFile := ⟨some "rs", true, "abcdefgh\nxxunsafe"⟩

/-- Concrete fixture: a single-line Rust file with an unsafe token. -/
def fRustOneLine : SrcFile := ⟨some "rs", true, "unsafe"⟩

/-- Concrete fixture: a clean Java file for the batch. -/
def fBatchJava : SrcFile := ⟨some "java", true, "class A"⟩

/-- Concrete fixture: an extension-less file in the batch. -/
def fMakefile : SrcFile := ⟨none, true, "all:"⟩

/-- Concrete fixture: a regular file named 42.txt (extension txt). -/
def file42txt : FileEntry := ⟨false, true, some "42.txt", some "txt", false⟩

/-- Concrete fixture: captures of the pattern with the id and extension
placeholders on the filename 42.txt. -/
def caps42 : Caps :=
  ⟨fun k => if k = "id" then some "42"
    else if k = "extension" then some "txt" else none⟩

/-- Concrete fixture: a filesystem in which every effect succeeds. -/
def goodEnv : FsEnv := ⟨.ok, .ok (), .ok ()⟩

/-- Concrete fixture: a regular file named 42.java (known extension). -/
def file42java : FileEntry := ⟨false, true, some "42.java", some "java", false⟩

/-- Concrete fixture: captures of the same pattern on the filename 42.java. -/
def caps42java : Caps :=
  ⟨fun k => if k = "id" then some "42"
    else if k = "extension" then some "java" else none⟩

/-- Concrete fixture: a runner whose child has exited with code 0 while its
stdout pipe still holds output. -/
def exitedRunner : JavaRunner :=
  ⟨some 0, some ⟨true, some "out", .exited (some 0)⟩, none⟩

/-- Concrete fixture: a runner on which run() was never called. -/
def notStartedRunner : JavaRunner := ⟨none, none, none⟩

/-- Concrete fixture: a configuration with four worker threads. -/
def cfgPool : Config := ⟨[], 4, 5⟩

theorem commonPrefixLen_nil_left (a : List String) : commonPrefixLen [] a = 0 := by
  cases a <;> rfl

theorem commonPrefixLen_nil_right (e : List String) : commonPrefixLen e [] = 0 := by
  cases e <;> rfl

theorem commonPrefixLen_cons (x y : String) (xs ys : List String) :
    commonPrefixLen (x :: xs) (y :: ys) =
      if x = y then commonPrefixLen xs ys + 1 else 0 := rfl

/-- The model diff reports zero additions and zero removals exactly when
the two token sequences are equal. -/
theorem diff_zero_iff : ∀ (e a : List String),
    (diffCompute e a).additions.length + (diffCompute e a).removals.length = 0 ↔
      e = a := by
  intro e
  induction e with
  | nil =>
    intro a
    cases a with
    | nil => simp [diffCompute, commonPrefixLen_nil_left]
    | cons y ys => simp [diffCompute, commonPrefixLen_nil_left]
  | cons x xs ih =>
    intro a
    cases a with
    | nil => simp [diffCompute, commonPrefixLen_nil_right]
    | cons y ys =>
      by_cases hxy : x = y
      · subst hxy
        have h := ih ys
        simp [diffCompute, commonPrefixLen_cons] at h ⊢
        exact h
      · simp [diffCompute, commonPrefixLen_cons, hxy]

theorem runCases_length (path : String) (f : Nat → CaseExec) :
    ∀ (i : Nat) (l : List TestCase), (runCases path f i l).length = l.length := by
  intro i l
  induction l generalizing i with
  | nil => rfl
  | cons tc rest ih => simp [runCases, ih]

theorem runCases_getElem? (path : String) (f : Nat → CaseExec) :
    ∀ (l : List TestCase) (i j : Nat),
      (runCases path f i l).get? j =
        (l.get? j).map (fun tc => testProc path tc (f (i + j))) := by
  intro l
  induction l with
  | nil => intro i j; simp [runCases]
  | cons tc rest ih =>
    intro i j
    cases j with
    | zero => simp [runCases]
    | succ j' =>
      have harith : i + 1 + j' = i + (j' + 1) := by omega
      simpa [runCases, harith] using ih (i + 1) j'

/-- C1: for every submission and every test case whose process completes
before the configured timeout (and whose stdout was captured), the recorded
outcome is Correct exactly when the captured stdout's line sequence equals
the expected text's line sequence; otherwise the outcome is Wrong and
carries the computed diff; and the diff has zero additions and removals
exactly when the two line sequences are equal. -/
theorem c1_correct_iff_line_equal (path : String) (tc : TestCase) (ex : CaseExec)
    (out : String)
    (hrun : ex.runResult = .ok ()) (hstdin : ex.stdinResult = .ok ())
    (hwait : ex.completedInTime = true) (hread : ex.readResult = .ok out) :
    (testProc path tc ex = TestResult.Correct tc out ↔
      linesWT tc.expected = linesWT out) ∧
    (linesWT tc.expected ≠ linesWT out →
      testProc path tc ex =
        TestResult.Wrong tc out (diffCompute (linesWT tc.expected) (linesWT out))) ∧
    ((diffCompute (linesWT tc.expected) (linesWT out)).additions.length +
        (diffCompute (linesWT tc.expected) (linesWT out)).removals.length = 0 ↔
      linesWT tc.expected = linesWT out) := by
  have hz := diff_zero_iff (linesWT tc.expected) (linesWT out)
  have hwrong : linesWT tc.expected ≠ linesWT out →
      testProc path tc ex =
        TestResult.Wrong tc out (diffCompute (linesWT tc.expected) (linesWT out)) := by
    intro hne
    have hnz : ¬ ((diffCompute (linesWT tc.expected) (linesWT out)).additions.length +
        (diffCompute (linesWT tc.expected) (linesWT out)).removals.length = 0) :=
      fun h => hne (hz.mp h)
    simp [testProc, hrun, hstdin, hwait, hread, hnz]
  refine ⟨⟨?_, ?_⟩, hwrong, hz⟩
  · intro hres
    by_contra hne
    rw [hwrong hne] at hres
    exact TestResult.noConfusion hres
  · intro heq
    simp [testProc, hrun, hstdin, hwait, hread, hz.mpr heq]

/-- C1 witness: the end-to-end scenario of the spec, a program printing the
expected sum is recorded Correct. -/
theorem c1_witness : testProc "p" tcSum exCorrect = TestResult.Correct tcSum "7\n" :=
  (c1_correct_iff_line_equal "p" tcSum exCorrect "7\n" rfl rfl rfl rfl).1.mpr rfl

/-- C2: when a case's process does not complete within the timeout, its
recorded outcome is Error with reason "Timed out." and code 9 (the SIGKILL
kill-signal code), and the per-case loop still produces one outcome per
configured test case, each later case judged from its own execution. -/
theorem c2_timeout_outcome (cfg : Config) (path : String) (ex : SubmissionExec)
    (i : Nat)
    (hsem : ex.semaphoreOk = true) (hinit : ex.runnerInitOk = true)
    (hfn : ex.filenameOk = true) (hprep : ex.prepareResult = .ok ())
    (hrun : (ex.caseExec i).runResult = .ok ())
    (hstdin : (ex.caseExec i).stdinResult = .ok ())
    (htimeout : (ex.caseExec i).completedInTime = false) :
    testFileProgress cfg path ex = .ok (runCases path ex.caseExec 0 cfg.testcases) ∧
    (runCases path ex.caseExec 0 cfg.testcases).length = cfg.testcases.length ∧
    (∀ j, (runCases path ex.caseExec 0 cfg.testcases).get? j =
        (cfg.testcases.get? j).map (fun tc => testProc path tc (ex.caseExec j))) ∧
    (∀ tc, cfg.testcases.get? i = some tc →
        (runCases path ex.caseExec 0 cfg.testcases).get? i =
          some (TestResult.Error "Timed out." 9)) := by
  refine ⟨?_, runCases_length path ex.caseExec 0 cfg.testcases, ?_, ?_⟩
  · simp [testFileProgress, hsem, hinit, hfn, hprep]
  · intro j
    simpa using runCases_getElem? path ex.caseExec cfg.testcases 0 j
  · intro tc htc
    have h := runCases_getElem? path ex.caseExec cfg.testcases 0 i
    rw [h, htc]
    simp [testProc, hrun, hstdin, htimeout]

/-- C2 witness: a two-case submission that times out on case 0 still yields
a full outcome list with Error "Timed out." code 9 at case 0. -/
theorem c2_witness :
    testFileProgress cfgTwo "p" exTimeout =
      .ok (runCases "p" exTimeout.caseExec 0 cfgTwo.testcases) ∧
    (runCases "p" exTimeout.caseExec 0 cfgTwo.testcases).length =
      cfgTwo.testcases.length ∧
    (runCases "p" exTimeout.caseExec 0 cfgTwo.testcases).get? 0 =
      some (TestResult.Error "Timed out." 9) := by
  have h := c2_timeout_outcome cfgTwo "p" exTimeout 0 rfl rfl rfl rfl rfl rfl rfl
  exact ⟨h.1, h.2.1, h.2.2.2 tcSum rfl⟩

/-- C7: when prepare fails with a compile error, the aggregated entry for
that submission is one Error per configured test case, all carrying the
compile failure's reason and its code (defaulted to -1 when absent), and
the result does not depend on the per-case execution oracle at all: no
test case is run. -/
theorem c7_prepare_failure (cfg : Config) (path : String) (ex : SubmissionExec)
    (c : Option Int) (r : String)
    (hsem : ex.semaphoreOk = true) (hinit : ex.runnerInitOk = true)
    (hfn : ex.filenameOk = true)
    (hprep : ex.prepareResult = .error (.CE c r)) :
    testDirsEntry cfg path ex =
      (path, List.replicate cfg.testcases.length
        (TestResult.Error r (c.getD (-1)))) ∧
    (∀ f, testDirsEntry cfg path { ex with caseExec := f } =
        testDirsEntry cfg path ex) := by
  constructor
  · simp [testDirsEntry, testFileProgress, hsem, hinit, hfn, hprep]
  · intro f
    simp [testDirsEntry, testFileProgress, hsem, hinit, hfn, hprep]

/-- C7 witness: a submission failing compilation with exit code 1 is
recorded as two identical Error outcomes for the two-case configuration,
independently of what its cases would have done. -/
theorem c7_witness :
    testDirsEntry cfgTwo "p" exCompileFail =
      ("p", List.replicate cfgTwo.testcases.length
        (TestResult.Error "javac: error" 1)) := by
  have h := c7_prepare_failure cfgTwo "p" exCompileFail (some 1) "javac: error"
    rfl rfl rfl rfl
  simpa using h.1

/-- C3 counterexample: with the allow list resolving to the All sentinel,
a file whose path has no extension does not yield zero findings: the
screener panics on the unwrapped extension before reaching the All
short-circuit. -/
theorem c3_counterexample :
    check ["All"] "sub/noext" fNoExt = .error .panicNoExt ∧
    check ["All"] "sub/noext" fNoExt ≠ .ok [] := by
  refine ⟨rfl, ?_⟩
  intro h
  rw [show check ["All"] "sub/noext" fNoExt = .error .panicNoExt from rfl] at h
  exact Except.noConfusion h

/-- C3 amended: for every file whose path has an extension, and every
content, if the configured allow list resolves to a capability set
containing the All sentinel then the screener returns zero findings,
short-circuiting before the file is even opened. -/
theorem c3_all_short_circuit (allowcfg : List String) (path : String)
    (f : SrcFile) (e : String)
    (hext : f.ext = some e) (hall : Allow.All ∈ resolveAllowed allowcfg) :
    check allowcfg path f = .ok [] := by
  simp [check, hext, hall]

/-- C3 witness: a Python file full of otherwise-prohibited tokens is not
flagged under an allow list containing All. -/
theorem c3_witness : check ["All"] "sub/a.py" fAllPy = .ok [] :=
  c3_all_short_circuit ["All"] "sub/a.py" fAllPy "py" rfl (by decide)

/-- C4 counterexample: with FileIO allowed (and All not), a Java file whose
text contains only FileIO tokens still produces a finding, because the All
variant is itself in the complement of the allow set and its combined
token table contains the FileIO tokens. -/
theorem c4_counterexample :
    check ["FileIO"] "sub/M.java" fJavaFileIo =
      .ok [⟨none, some Allow.All, (1, 0), "sub/M.java"⟩] ∧
    ([⟨none, some Allow.All, (1, 0), "sub/M.java"⟩] : List IllegalExpr) ≠ [] := by
  exact ⟨rfl, by simp⟩

/-- C4 amended: for an allow set not containing All, the screener searches
exactly the token tables of the categories in the complement of the allow
set over the full enumeration — a complement that always contains the All
sentinel and its combined table — and produces zero findings exactly on
files whose text contains no token of any complement category. -/
theorem c4_complement_scan (allowcfg : List String) (path : String)
    (f : SrcFile) (e : String)
    (hext : f.ext = some e) (hro : f.readable = true)
    (hall : Allow.All ∉ resolveAllowed allowcfg)
    (hclean : ∀ a ∈ allowIter, a ∉ resolveAllowed allowcfg →
      ∀ t ∈ Allow.getProhibited a (langOfExt e),
        firstOcc f.content.data t.data 0 = none) :
    check allowcfg path f = .ok [] := by
  have hillegal : illegalOf f.content
      (prohibitedStrOf (resolveAllowed allowcfg) (langOfExt e)) = [] := by
    unfold illegalOf
    rw [List.filterMap_eq_nil]
    intro ij hij
    unfold prohibitedStrOf at hij
    rw [List.mem_flatMap] at hij
    obtain ⟨i, hi, hij2⟩ := hij
    rw [List.mem_map] at hij2
    obtain ⟨j, hj, rfl⟩ := hij2
    have hi2 : i ∈ allowIter ∧ i ∉ resolveAllowed allowcfg := by
      have hm := List.mem_filter.mp hi
      exact ⟨hm.1, of_decide_eq_true hm.2⟩
    rw [hclean i hi2.1 hi2.2 j hj]
    rfl
  simp [check, hext, hro, hall, hillegal]
  rfl

/-- C4 witness: a clean Java file produces zero findings when only FileIO
is allowed. -/
theorem c4_witness : check ["FileIO"] "sub/M.java" fCleanJava = .ok [] :=
  c4_complement_scan ["FileIO"] "sub/M.java" fCleanJava "java" rfl rfl
    (by decide) (by decide)

/-- C5: evaluation of the screener's location computation at a failing
input.  The token at offset 11 of the Rust file sits on line 1 at column 2
(the reference computation following the spec's words), but the screener
reports (3, 0) for both findings, because its loop compares each
individual line length against the offset instead of accumulating; on a
single-line file the same loop exhausts its iterator and panics. -/
theorem c5_eval :
    check [] "sub/a.rs" fRustTwoLines =
      .ok [⟨none, some Allow.Unsafe, (3, 0), "sub/a.rs"⟩,
        ⟨none, some Allow.All, (3, 0), "sub/a.rs"⟩] ∧
    specLineCol "abcdefgh\nxxunsafe" 11 = (1, 2) ∧
    ((3, 0) : Nat × Nat) ≠ ((1, 2) : Nat × Nat) ∧
    check [] "sub/b.rs" fRustOneLine = .error .panicLineWalk := by
  exact ⟨rfl, rfl, by decide, rfl⟩

/-- C9: evaluation at a failing input.  A batch containing a clean Java
file and an extension-less file does not degrade to a skipped scan for the
latter: the screening task panics on the unwrapped extension and the
awaited join handle aborts the whole batch. -/
theorem c9_eval :
    checkDirs [] [("t/A.java", fBatchJava), ("t/Makefile", fMakefile)] =
      .error .panicNoExt := rfl

/-- C6 counterexample: the filename 42.txt matches the anchored pattern
compiled from the format with the id and extension placeholders, capturing
id 42 and extension txt, yet unpack does not succeed: the file's extension
txt is outside the known-extension allow list, so the file is rejected
with Ignore before the regex is even consulted. -/
theorem c6_counterexample :
    capList (parseFmt "{id}.{extension}") ("42.txt".data)
      [(Ph.id, "42".data), (Ph.extension, "txt".data)] ∧
    unpack .Id "/tmp/t" file42txt (some caps42) goodEnv = .error .Ignore ∧
    (Except.error UnpackError.Ignore : Except UnpackError String) ≠
      Except.ok ("/tmp/t" ++ "/" ++ "42") := by
  refine ⟨?_, rfl, ?_⟩
  · show capList [FmtItem.ph .id, FmtItem.lit '.', FmtItem.ph .extension]
      ("42.txt".data) [(Ph.id, "42".data), (Ph.extension, "txt".data)]
    exact ⟨"42".data, ".txt".data, [(Ph.extension, "txt".data)], by decide, by decide,
      rfl, "txt".data, rfl, "txt".data, [], [], rfl, by decide, rfl, rfl, rfl⟩
  · intro h
    exact Except.noConfusion h

/-- C6 amended: for every file that is regular, has an extension in the
known-extension allow list, and whose name the compiled pattern matches
with an id capture (orderby Id) and an extension capture that is neither
toml nor json, with the filesystem effects succeeding, unpack succeeds and
the resolved workspace directory is the temp root joined with exactly the
id capture. -/
theorem c6_route_ok (p : FileEntry) (c : Caps) (env : FsEnv)
    (tempDir idStr extStr e fn : String)
    (hdir : p.isDir = false) (hfile : p.isFile = true)
    (hext : p.ext = some e) (hknown : knownExtensions.contains e = true)
    (hname : p.fileName = some fn)
    (hid : c.find "id" = some idStr)
    (hcape : c.find "extension" = some extStr)
    (htoml : extStr ≠ "toml") (hjson : extStr ≠ "json")
    (hmk : env.createDir = .ok ∨ env.createDir = .alreadyExists)
    (hzip : (extStr = "zip" ∨ extStr = "tar" ∨ extStr = "tar.gz") →
      env.unzip = .ok ())
    (hcopy : ¬ (extStr = "zip" ∨ extStr = "tar" ∨ extStr = "tar.gz") →
      env.copy = .ok ()) :
    unpack .Id tempDir p (some c) env = .ok (tempDir ++ "/" ++ idStr) := by
  have hmem : e ∈ knownExtensions := by simpa using hknown
  rcases hmk with hmk | hmk
  · by_cases harc : (extStr = "zip" ∨ extStr = "tar" ∨ extStr = "tar.gz")
    · simp [unpack, hdir, hfile, hext, hknown, hname, hid, hcape, htoml, hjson,
        hmk, harc, hzip harc, hmem]
    · simp [unpack, hdir, hfile, hext, hknown, hname, hid, hcape, htoml, hjson,
        hmk, harc, hcopy harc, hmem]
  · by_cases harc : (extStr = "zip" ∨ extStr = "tar" ∨ extStr = "tar.gz")
    · simp [unpack, hdir, hfile, hext, hknown, hname, hid, hcape, htoml, hjson,
        hmk, harc, hzip harc, hmem]
    · simp [unpack, hdir, hfile, hext, hknown, hname, hid, hcape, htoml, hjson,
        hmk, harc, hcopy harc, hmem]

/-- C6 witness: the file 42.java routes to the workspace keyed by exactly
the captured id 42. -/
theorem c6_witness :
    unpack .Id "/tmp/t" file42java (some caps42java) goodEnv =
      .ok ("/tmp/t" ++ "/" ++ "42") :=
  c6_route_ok file42java caps42java goodEnv "/tmp/t" "42" "java" "java" "42.java"
    rfl rfl rfl rfl rfl rfl rfl (by decide) (by decide) (Or.inl rfl)
    (fun harc => absurd harc (by decide)) (fun _ => rfl)

/-- C8 counterexample: a runner whose child process has already exited is
not running, yet read_all returns the drained stdout rather than an
error. -/
theorem c8_counterexample :
    (JavaRunner.runningPoll exitedRunner).2 = false ∧
    JavaRunner.readAll exitedRunner = .ok "out" := ⟨rfl, rfl⟩

/-- C8 amended: read_all returns an error exactly when the child process
was never spawned (no process handle) or its stdout is not piped; whenever
a process handle with a piped stdout exists — running or already exited —
it returns the drained stdout. -/
theorem c8_read_all_spec (r : JavaRunner) :
    (r.process = none → r.readAll = .error "Process is not running!") ∧
    (∀ p, r.process = some p → p.stdoutPipe = none →
      r.readAll = .error "Stdout is not open!") ∧
    (∀ p buf, r.process = some p → p.stdoutPipe = some buf →
      r.readAll = .ok buf) := by
  refine ⟨?_, ?_, ?_⟩
  · intro h
    simp [JavaRunner.readAll, h]
  · intro p hp hs
    simp [JavaRunner.readAll, hp, hs]
  · intro p buf hp hs
    simp [JavaRunner.readAll, hp, hs]

/-- C8 witness: a runner on which run() was never called reports an error
from read_all. -/
theorem c8_witness :
    JavaRunner.readAll notStartedRunner = .error "Process is not running!" :=
  (c8_read_all_spec notStartedRunner).1 rfl

theorem holdingCount_replicate_pending :
    ∀ n, holdingCount (List.replicate n TaskPhase.pending) = 0 := by
  intro n
  induction n with
  | zero => rfl
  | succ k ih => simp [List.replicate, holdingCount, ih]

theorem holdingCount_set_holding :
    ∀ (l : List TaskPhase) (i : Nat), l[i]? = some TaskPhase.pending →
      holdingCount (l.set i TaskPhase.holding) = holdingCount l + 1 := by
  intro l
  induction l with
  | nil => intro i h; simp at h
  | cons x xs ih =>
    intro i h
    cases i with
    | zero =>
      simp at h
      subst h
      simp [List.set, holdingCount]
    | succ i' =>
      simp at h
      have h2 := ih i' h
      cases x <;> simp [List.set, holdingCount, h2] <;> omega

theorem holdingCount_set_done :
    ∀ (l : List TaskPhase) (i : Nat), l[i]? = some TaskPhase.holding →
      holdingCount (l.set i TaskPhase.done) + 1 = holdingCount l := by
  intro l
  induction l with
  | nil => intro i h; simp at h
  | cons x xs ih =>
    intro i h
    cases i with
    | zero =>
      simp at h
      subst h
      simp [List.set, holdingCount]
    | succ i' =>
      simp at h
      have h2 := ih i' h
      cases x <;> simp [List.set, holdingCount] <;> omega

/-- One pool step preserves the permit bound and the capacity. -/
theorem poolStep_preserves (a b : PoolState) (hstep : PoolStep a b)
    (hinv : holdingCount a.tasks ≤ a.capacity) :
    holdingCount b.tasks ≤ b.capacity ∧ b.capacity = a.capacity := by
  cases hstep with
  | acquire i hp hcap =>
    refine ⟨?_, rfl⟩
    have h2 := holdingCount_set_holding a.tasks i hp
    simp only [h2]
    omega
  | release i hh =>
    refine ⟨?_, rfl⟩
    have h2 := holdingCount_set_done a.tasks i hh
    show holdingCount (a.tasks.set i TaskPhase.done) ≤ a.capacity
    omega

/-- C10 amended: within the judging phase, in every pool state reachable
from test_dirs' initial state — a fresh semaphore of capacity
threads.max(1) with every submission task pending, each task acquiring one
permit for its whole prepare-and-run-all-cases sequence and releasing it
once — the number of tasks simultaneously holding a permit never exceeds
the configured thread count clamped to a minimum of 1. -/
theorem c10_bound_invariant (cfg : Config) (n : Nat) (s : PoolState)
    (h : Relation.ReflTransGen PoolStep (initPool cfg n) s) :
    holdingCount s.tasks ≤ max cfg.threads 1 ∧
    s.capacity = max cfg.threads 1 := by
  induction h with
  | refl =>
    constructor
    · rw [show (initPool cfg n).tasks = List.replicate n TaskPhase.pending from rfl,
        holdingCount_replicate_pending]
      exact Nat.zero_le _
    · rfl
  | tail _ hbc ih =>
    obtain ⟨h1, h2⟩ := ih
    have h3 := poolStep_preserves _ _ hbc (le_of_le_of_eq h1 h2.symm)
    constructor
    · rw [← h2, ← h3.2]
      exact h3.1
    · exact h3.2.trans h2

/-- C10 counterexample: a full run does not share one process-wide
semaphore across phases: run() awaits three phases and each constructs its
own semaphore, so three semaphores are created, not one. -/
theorem c10_counterexample :
    (runCreatedSemaphores cfgPool).length = 3 ∧
    (runCreatedSemaphores cfgPool).length ≠ 1 := ⟨rfl, by decide⟩

/-- C10 witness: the initial judging pool state with three submissions
satisfies the bound. -/
theorem c10_witness :
    holdingCount (initPool cfgPool 3).tasks ≤ max cfgPool.threads 1 ∧
    (initPool cfgPool 3).capacity = max cfgPool.threads 1 :=
  c10_bound_invariant cfgPool 3 (initPool cfgPool 3) Relation.ReflTransGen.refl

end Bestest
